import Mathlib

/-!
# Verification of the m4b-joiner chapter pipeline

A shallow embedding of `src/m4b-joiner.py`.  Text is modelled as `List Char`,
Python `float` durations as exact rationals (`ℚ`), Python `int` as `ℤ`.
The two external-process boundaries are modelled as oracles:

* `fs : List Char → FileStatus` answers, for a file path, whether the file
  exists (`os.path.isfile`) and, when it does, what `get_file_info` would
  return for it (`ProbeOutcome.fail` models the `ffprobe`/parse failure paths
  of `get_file_info`, which call `sys.exit(1)`; `ProbeOutcome.ok info` models
  a successful probe).
* `muxOk : Bool` tells whether the final `ffmpeg` invocation exits zero.

`runPipeline` embeds the body of `main` from the point where the order file
has been read (its `readlines` result is the `lines` argument) to process
exit, recording the observable outcome: the process exit code, the chapters
built, the concat-manifest lines written, the warning count, whether the join
step was invoked, and which intermediate artifacts were created and removed.
-/

namespace M4bJoiner

/-- The ASCII whitespace characters removed by Python `str.strip()`
(space, tab, newline, carriage return, vertical tab, form feed). -/
def pyIsSpace (c : Char) : Bool :=
  c == ' ' || c == '\t' || c == '\n' || c == '\r' || c == '\x0b' || c == '\x0c'

/-- Python `str.strip()`: remove leading and trailing whitespace. -/
def pyStrip (s : List Char) : List Char :=
  ((s.dropWhile pyIsSpace).reverse.dropWhile pyIsSpace).reverse

/-- Prepend a character to the first piece of a split result. -/
def consHead (c : Char) : List (List Char) → List (List Char)
  | [] => [[c]]
  | p :: ps => (c :: p) :: ps

/-- Python `str.split(sep)` for a one-character separator: splits on every
occurrence, `n` separators yield `n+1` (possibly empty) pieces. -/
def pySplitChar (sep : Char) : List Char → List (List Char)
  | [] => [[]]
  | c :: cs => if c = sep then [] :: pySplitChar sep cs else consHead c (pySplitChar sep cs)

/-- Index of the last occurrence of `c` in `s`, if any (Python `str.rfind`). -/
def rfindLast (c : Char) (s : List Char) : Option Nat :=
  match s.reverse.findIdx? (fun x => x == c) with
  | none => none
  | some i => some (s.length - 1 - i)

/-- `os.path.splitext` (posix variant): split off the extension starting at the
last dot, provided that dot comes after the last path separator and at least one
non-dot character stands between them. -/
def splitext (p : List Char) : List Char × List Char :=
  let sepIdx : ℤ := match rfindLast '/' p with | none => -1 | some i => (i : ℤ)
  let dotIdx : ℤ := match rfindLast '.' p with | none => -1 | some i => (i : ℤ)
  if sepIdx < dotIdx then
    if (List.range p.length).any
        (fun j => decide (sepIdx < (j : ℤ)) && decide ((j : ℤ) < dotIdx)
          && (p.getD j '.' != '.')) then
      (p.take dotIdx.toNat, p.drop dotIdx.toNat)
    else (p, [])
  else (p, [])

/-- `os.path.join` (posix variant) for the two-argument case used at line 195. -/
def pathJoin (a b : List Char) : List Char :=
  if b.head? = some '/' then b
  else if a = [] ∨ a.getLast? = some '/' then a ++ b
  else a ++ '/' :: b

/-- Python `str.replace(target, repl)` for a one-character target: every
occurrence of `t` is replaced by the string `r`. -/
def replaceChar (t : Char) (r : List Char) : List Char → List Char
  | [] => []
  | c :: cs => (if c = t then r else [c]) ++ replaceChar t r cs

/-- `escape_metadata` (source lines 94-101): sequentially replace
backslash by a doubled backslash, then prefix `=`, `;` and `#` with a
backslash. -/
def escape_metadata (text : List Char) : List Char :=
  replaceChar '#' ['\\', '#']
    (replaceChar ';' ['\\', ';']
      (replaceChar '=' ['\\', '=']
        (replaceChar '\\' ['\\', '\\'] text)))

/-- Un-escaping of an FFMETADATA value: a backslash makes the following
character literal.  This is the inverse reading direction of
`escape_metadata`, used to state the round-trip law. -/
def unescape : List Char → List Char
  | [] => []
  | [c] => [c]
  | c :: c2 :: cs => if c = '\\' then c2 :: unescape cs else c :: unescape (c2 :: cs)

/-- `q * 1_000_000_000` as an exact rational, computed on the
numerator/denominator representation (the field multiplication of `ℚ` does
not reduce during definitional unfolding, `mkRat` does); `mulPow9_eq` below
proves it equal to `q * 1000000000`. -/
def mulPow9 (q : ℚ) : ℚ := mkRat (q.num * 1000000000) q.den

/-- Python `int()` applied to a (here: exactly represented) real number:
truncation toward zero, computed without rational field operations;
`pyInt_eq` below proves it is `⌊q⌋` for nonnegative and `⌈q⌉` for negative
arguments. -/
def pyInt (q : ℚ) : ℤ :=
  if 0 ≤ q.num then q.floor else -(Rat.floor (mkRat (-q.num) q.den))

/-- `int(duration * 1_000_000_000)` (source line 221). -/
def durationNs (q : ℚ) : ℤ := pyInt (mulPow9 q)

/-- Truncation toward zero stated with the Mathlib floor/ceiling API; the
spec-side description of the conversion the code performs. -/
def truncQ (x : ℚ) : ℤ := if 0 ≤ x then ⌊x⌋ else ⌈x⌉

/-- Python `round()` to an integer: round half to even, computed on the
numerator/denominator representation.  With `f` the floor and `rem` the
(nonnegative) remainder of `num` modulo the positive denominator, the
fractional part `rem/den` is compared with `1/2` by comparing `2*rem` with
`den`.  Used only to state what the spec's
`round(durationSeconds * 1_000_000_000)` would compute. -/
def pyRound (q : ℚ) : ℤ :=
  let f := q.num.fdiv q.den
  let rem := q.num - q.den * f
  if 2 * rem < q.den then f
  else if (q.den : ℤ) < 2 * rem then f + 1
  else if f % 2 = 0 then f else f + 1

/-- The result of `get_file_info` (source lines 53-92): duration in seconds
(container level) plus sample rate and channel count of the first audio
stream.  Durations are modelled as exact rationals. -/
structure AudioInfo where
  duration : ℚ
  sample_rate : ℤ
  channels : ℤ
deriving DecidableEq

/-- Outcome of probing an existing file: `fail` models every path on which
`get_file_info` calls `sys.exit(1)` (ffprobe non-zero exit, no audio stream,
unparseable fields); `ok` carries the parsed `AudioInfo`. -/
inductive ProbeOutcome where
  | fail
  | ok (info : AudioInfo)
deriving DecidableEq

/-- What the filesystem/probe oracle answers for one path:
the file is absent (`os.path.isfile` is false) or present with a probe
outcome. -/
inductive FileStatus where
  | absent
  | present (p : ProbeOutcome)
deriving DecidableEq

/-- One chapter as appended at source lines 227-231. -/
structure Chapter where
  title : List Char
  startNs : ℤ
  endNs : ℤ
deriving DecidableEq

/-- Parsing of one (already stripped) order line, source lines 188-193:
split on every `|`; the filename is the stripped first piece; the title is
the stripped second piece when present, else the filename without its
extension. -/
def parseLine (line : List Char) : List Char × List Char :=
  match pySplitChar '|' line with
  | f :: t :: _ => (pyStrip f, pyStrip t)
  | f :: _ => (pyStrip f, (splitext (pyStrip f)).1)
  | [] => ([], (splitext []).1)

/-- The concat-manifest line written for one file (source lines 235-236):
backslashes in the path are replaced by forward slashes and the result is
wrapped in `file '...'` with a trailing newline.  Single quotes in the path
are not touched. -/
def concatLineFor (filePath : List Char) : List Char :=
  ("file ".data ++ ['\'']) ++ replaceChar '\\' ['/'] filePath ++ ['\'', '\n']

/-- The mutable state of the processing loop of `main`
(source lines 169-238). -/
structure LoopState where
  analysisRef : Option AudioInfo
  curNs : ℤ
  chapters : List Chapter
  concatLines : List (List Char)
  warnings : Nat
deriving DecidableEq

/-- State before the loop: no reference profile, cursor at 0, nothing
written, no warnings. -/
def initState : LoopState :=
  { analysisRef := none, curNs := 0, chapters := [], concatLines := [], warnings := 0 }

/-- Why the loop aborted the whole run (each corresponds to a `sys.exit(1)`
reached from inside the loop). -/
inductive AbortReason where
  | probeError
  | sampleRateMismatch
  | channelMismatch
deriving DecidableEq

/-- Outcome of the processing loop: either some `sys.exit(1)` fired inside it
(`aborted`, with the state at that moment), or all lines were consumed
(`finished`). -/
inductive LoopOut where
  | aborted (reason : AbortReason) (s : LoopState)
  | finished (s : LoopState)
deriving DecidableEq

/-- The loop state carried by either outcome. -/
def LoopOut.state : LoopOut → LoopState
  | .aborted _ s => s
  | .finished s => s

/-- Whether the loop aborted. -/
def LoopOut.isAborted : LoopOut → Bool
  | .aborted _ _ => true
  | .finished _ => false

/-- The abort reason, if any. -/
def LoopOut.reasonOf : LoopOut → Option AbortReason
  | .aborted r _ => some r
  | .finished _ => none

/-- State update for one accepted file (source lines 221-238): compute the
nanosecond duration by truncation, append the chapter `[start, end)` at the
current cursor, advance the cursor, append the concat-manifest line. -/
def appendChapter (s : LoopState) (newRef : Option AudioInfo) (title filePath : List Char)
    (info : AudioInfo) : LoopState :=
  { analysisRef := newRef
    curNs := s.curNs + durationNs info.duration
    chapters := s.chapters ++ [⟨title, s.curNs, s.curNs + durationNs info.duration⟩]
    concatLines := s.concatLines ++ [concatLineFor filePath]
    warnings := s.warnings }

/-- The processing loop of `main` (source lines 187-238) over the stripped,
non-blank order lines.  A missing file warns and skips; a probe failure or a
sample-rate/channel mismatch aborts the run; otherwise the chapter and
manifest line are appended. -/
def processLines (inputDir : List Char) (fs : List Char → FileStatus) :
    List (List Char) → LoopState → LoopOut
  | [], s => .finished s
  | line :: rest, s =>
    match fs (pathJoin inputDir (parseLine line).1) with
    | .absent => processLines inputDir fs rest { s with warnings := s.warnings + 1 }
    | .present .fail => .aborted .probeError s
    | .present (.ok info) =>
      match s.analysisRef with
      | none =>
          processLines inputDir fs rest
            (appendChapter s (some info) (parseLine line).2
              (pathJoin inputDir (parseLine line).1) info)
      | some r =>
          if info.sample_rate ≠ r.sample_rate then .aborted .sampleRateMismatch s
          else if info.channels ≠ r.channels then .aborted .channelMismatch s
          else
            processLines inputDir fs rest
              (appendChapter s (some r) (parseLine line).2
                (pathJoin inputDir (parseLine line).1) info)

/-- Source line 178: strip every line and keep the non-empty results. -/
def validLines (lines : List (List Char)) : List (List Char) :=
  (lines.map pyStrip).filter (fun l => !l.isEmpty)

/-- One `[CHAPTER]` block of the metadata artifact (source lines 252-256). -/
def chapterBlock (c : Chapter) : List Char :=
  "[CHAPTER]\nTIMEBASE=1/1000000000\nSTART=".data
    ++ (toString c.startNs).data
    ++ "\nEND=".data ++ (toString c.endNs).data
    ++ "\ntitle=".data ++ escape_metadata c.title ++ ['\n']

/-- The full metadata artifact (source lines 249-256). -/
def metadataFor (chapters : List Chapter) : List Char :=
  ";FFMETADATA1\n".data ++ (chapters.map chapterBlock).flatten

/-- Observable outcome of one run of `main` past the order-file read:
process exit code, chapters, manifest lines, warnings, whether `ffmpeg` was
invoked, creation/removal of the two intermediate artifacts, which terminal
messages fired, and the metadata artifact content if it was written. -/
structure RunResult where
  exit : Nat
  chapters : List Chapter
  concatLines : List (List Char)
  warnings : Nat
  joinInvoked : Bool
  concatCreated : Bool
  concatRemoved : Bool
  metadataCreated : Bool
  metadataRemoved : Bool
  noValidFilesMsg : Bool
  successMsg : Bool
  metadataContent : Option (List Char)
deriving DecidableEq

/-- The concat manifest file exists on disk when the process exits. -/
def RunResult.concatRemains (r : RunResult) : Bool := r.concatCreated && !r.concatRemoved

/-- The metadata file exists on disk when the process exits. -/
def RunResult.metadataRemains (r : RunResult) : Bool := r.metadataCreated && !r.metadataRemoved

/-- Embedding of `main` from line 169 to process exit.  The concat file is
created when the `with open(...)` at line 186 runs, i.e. in every branch.
An abort (`sys.exit(1)` inside the loop) and the empty-chapter exit at lines
244-246 leave both intermediate files untouched on disk; only the join step
at lines 306-316 runs the `finally` cleanup that removes them.  A failing
`ffmpeg` invocation is caught at line 309, printed, and — since no
`sys.exit` follows — the process still exits 0. -/
def runPipeline (inputDir : List Char) (fs : List Char → FileStatus) (muxOk : Bool)
    (lines : List (List Char)) : RunResult :=
  match processLines inputDir fs (validLines lines) initState with
  | .aborted _ s =>
      { exit := 1, chapters := s.chapters, concatLines := s.concatLines,
        warnings := s.warnings, joinInvoked := false,
        concatCreated := true, concatRemoved := false,
        metadataCreated := false, metadataRemoved := false,
        noValidFilesMsg := false, successMsg := false, metadataContent := none }
  | .finished s =>
      if s.chapters.isEmpty then
        { exit := 1, chapters := s.chapters, concatLines := s.concatLines,
          warnings := s.warnings, joinInvoked := false,
          concatCreated := true, concatRemoved := false,
          metadataCreated := false, metadataRemoved := false,
          noValidFilesMsg := true, successMsg := false, metadataContent := none }
      else
        { exit := 0, chapters := s.chapters, concatLines := s.concatLines,
          warnings := s.warnings, joinInvoked := true,
          concatCreated := true, concatRemoved := true,
          metadataCreated := true, metadataRemoved := true,
          noValidFilesMsg := false, successMsg := muxOk,
          metadataContent := some (metadataFor s.chapters) }

/-- The ordered entries that survive the loop's checks (missing files are
skipped, an abort cuts the list short), each with its title, joined path and
probed info.  Defined by the same recursion as `processLines`; the
correspondence is proved below. -/
structure Survivor where
  title : List Char
  path : List Char
  info : AudioInfo
deriving DecidableEq

/-- The survivor list of a run, threading the reference profile exactly as
the loop does. -/
def survivors (inputDir : List Char) (fs : List Char → FileStatus) :
    List (List Char) → Option AudioInfo → List Survivor
  | [], _ => []
  | line :: rest, ref =>
    match fs (pathJoin inputDir (parseLine line).1) with
    | .absent => survivors inputDir fs rest ref
    | .present .fail => []
    | .present (.ok info) =>
      match ref with
      | none =>
          ⟨(parseLine line).2, pathJoin inputDir (parseLine line).1, info⟩
            :: survivors inputDir fs rest (some info)
      | some r =>
          if info.sample_rate ≠ r.sample_rate then []
          else if info.channels ≠ r.channels then []
          else
            ⟨(parseLine line).2, pathJoin inputDir (parseLine line).1, info⟩
              :: survivors inputDir fs rest (some r)

/-- The TimelineBuilder fold of spec §4.4, with the nanosecond conversion
being the truncation actually implemented at source line 221: starting from
cursor `t`, each entry becomes the chapter `[t, t + trunc(duration * 1e9))`
and the cursor advances to its end. -/
def timelineBuilderSpec : ℤ → List Survivor → List Chapter
  | _, [] => []
  | t, e :: rest =>
    ⟨e.title, t, t + truncQ (e.info.duration * 1000000000)⟩
      :: timelineBuilderSpec (t + truncQ (e.info.duration * 1000000000)) rest

/-- A chapter list is contiguous from `t`: the first chapter starts at `t`
and each chapter starts where the previous one ended. -/
def contiguousFrom : ℤ → List Chapter → Bool
  | _, [] => true
  | t, c :: cs => (c.startNs == t) && contiguousFrom c.endNs cs

/-- Whether the order line names a file absent from the input directory
(the condition of the warning at source lines 197-199). -/
def lineMissing (inputDir : List Char) (fs : List Char → FileStatus) (line : List Char) : Bool :=
  match fs (pathJoin inputDir (parseLine line).1) with
  | .absent => true
  | .present _ => false

/-! ### Concrete oracles used to evaluate the model on specific runs -/

/-- One probeable file `d/a.mp3`, one second long, 44100 Hz stereo. -/
def fsOneGood : List Char → FileStatus := fun p =>
  if p = "d/a.mp3".data then .present (.ok ⟨1, 44100, 2⟩) else .absent

/-- Two probeable files whose sample rates differ (44100 Hz vs 48000 Hz). -/
def fsRateClash : List Char → FileStatus := fun p =>
  if p = "d/a.mp3".data then .present (.ok ⟨1, 44100, 2⟩)
  else if p = "d/b.mp3".data then .present (.ok ⟨1, 48000, 2⟩)
  else .absent

/-- Two compatible files, one and two seconds long. -/
def fsTwoGood : List Char → FileStatus := fun p =>
  if p = "d/a.mp3".data then .present (.ok ⟨1, 44100, 2⟩)
  else if p = "d/b.mp3".data then .present (.ok ⟨2, 44100, 2⟩)
  else .absent

/-- One file whose duration is `3/2` nanoseconds (`3/2000000000` seconds):
the value on which truncation and round-half-to-even differ. -/
def fsHalfNs : List Char → FileStatus := fun p =>
  if p = "d/a.mp3".data then .present (.ok ⟨mkRat 3 2000000000, 44100, 2⟩) else .absent

/-- Five files of which exactly one (`d/f3.mp3`) is absent. -/
def fsOneMissing : List Char → FileStatus := fun p =>
  if p = "d/f3.mp3".data then .absent else .present (.ok ⟨1, 44100, 2⟩)

/-- One file that exists but whose probe fails (e.g. no audio stream). -/
def fsProbeFail : List Char → FileStatus := fun p =>
  if p = "d/a.mp3".data then .present .fail else .absent

/-- One file that probes successfully with duration zero. -/
def fsZeroDur : List Char → FileStatus := fun p =>
  if p = "d/a.mp3".data then .present (.ok ⟨0, 44100, 2⟩) else .absent

/-- An order file naming five files, `f1.mp3` … `f5.mp3`. -/
def fiveLines : List (List Char) :=
  ["f1.mp3".data, "f2.mp3".data, "f3.mp3".data, "f4.mp3".data, "f5.mp3".data]

/-! ### The computable numeric layer agrees with the floor/ceiling API -/

/-- `Rat.floor` is the mathematical floor. -/
theorem ratFloor_eq_floor (q : ℚ) : q.floor = ⌊q⌋ := by
  rw [Rat.floor_def', Rat.floor_def]

/-- `mulPow9` really is multiplication by `10^9`. -/
theorem mulPow9_eq (q : ℚ) : mulPow9 q = q * 1000000000 := by
  rw [mulPow9, Rat.mkRat_eq_divInt, Rat.divInt_eq_div]
  push_cast
  calc ((q.num : ℚ) * 1000000000) / (q.den : ℚ)
      = ((q.num : ℚ) / (q.den : ℚ)) * 1000000000 := by ring
    _ = q * 1000000000 := by rw [Rat.num_div_den]

/-- `pyInt` is truncation toward zero: floor on nonnegative, ceiling on
negative arguments. -/
theorem pyInt_eq (q : ℚ) : pyInt q = truncQ q := by
  rw [pyInt, truncQ]
  by_cases h : 0 ≤ q
  · rw [if_pos (Rat.num_nonneg.mpr h), if_pos h, ratFloor_eq_floor]
  · have hn : ¬0 ≤ q.num := fun hc => h (Rat.num_nonneg.mp hc)
    have hmk : mkRat (-q.num) q.den = -q := by
      rw [Rat.mkRat_eq_divInt, Rat.divInt_eq_div]
      push_cast
      calc (-(q.num : ℚ)) / (q.den : ℚ)
          = -((q.num : ℚ) / (q.den : ℚ)) := by ring
        _ = -q := by rw [Rat.num_div_den]
    rw [if_neg hn, if_neg h, hmk, ratFloor_eq_floor, Int.floor_neg, neg_neg]

/-- The nanosecond conversion of the loop is the truncation of
`duration * 10^9`, exactly `int(info['duration'] * 1_000_000_000)`. -/
theorem durationNs_eq (q : ℚ) : durationNs q = truncQ (q * 1000000000) := by
  rw [durationNs, mulPow9_eq, pyInt_eq]

/-! ### Escaping -/

/-- `replaceChar` distributes over append. -/
theorem replaceChar_append (t : Char) (r : List Char) (a b : List Char) :
    replaceChar t r (a ++ b) = replaceChar t r a ++ replaceChar t r b := by
  induction a with
  | nil => simp [replaceChar]
  | cons c cs ih => simp [replaceChar, ih]

/-- `escape_metadata` distributes over append. -/
theorem escape_append (a b : List Char) :
    escape_metadata (a ++ b) = escape_metadata a ++ escape_metadata b := by
  simp [escape_metadata, replaceChar_append]

/-- `escape_metadata` maps each character independently: the four reserved
characters gain a backslash prefix, everything else is unchanged.  In
particular the sequential `str.replace` calls never re-process the
backslashes they insert, because the backslash pass runs first. -/
theorem escape_single (c : Char) :
    escape_metadata [c] =
      if c = '\\' ∨ c = '=' ∨ c = ';' ∨ c = '#' then ['\\', c] else [c] := by
  by_cases h1 : c = '\\'
  · subst h1; decide
  by_cases h2 : c = '='
  · subst h2; decide
  by_cases h3 : c = ';'
  · subst h3; decide
  by_cases h4 : c = '#'
  · subst h4; decide
  rw [if_neg (by tauto)]
  simp [escape_metadata, replaceChar, h1, h2, h3, h4]

/-- A non-backslash character passes through `unescape` unchanged. -/
theorem unescape_cons_of_ne (c : Char) (l : List Char) (h : c ≠ '\\') :
    unescape (c :: l) = c :: unescape l := by
  cases l with
  | nil => rfl
  | cons d ds => simp [unescape, h]

/-- A backslash makes the next character literal under `unescape`. -/
theorem unescape_esc (c : Char) (l : List Char) :
    unescape ('\\' :: c :: l) = c :: unescape l := by
  simp [unescape]

/-! ### Structure of `str.split` -/

/-- `consHead` never yields the empty list. -/
theorem consHead_ne_nil (c : Char) (ps : List (List Char)) : consHead c ps ≠ [] := by
  cases ps <;> simp [consHead]

/-- A split result is never the empty list (Python's `split` always returns
at least one piece). -/
theorem pySplitChar_ne_nil (sep : Char) (l : List Char) : pySplitChar sep l ≠ [] := by
  cases l with
  | nil => simp [pySplitChar]
  | cons c cs =>
    by_cases h : c = sep
    · simp [pySplitChar, h]
    · simp [pySplitChar, h, consHead_ne_nil]

/-- When the separator does not occur, `takeWhile` keeps the whole list. -/
theorem takeWhile_of_not_mem (sep : Char) (l : List Char) (h : sep ∉ l) :
    l.takeWhile (fun c => !(c == sep)) = l := by
  induction l with
  | nil => rfl
  | cons c cs ih =>
    have hc : ¬(c = sep) := by rintro rfl; exact h (List.mem_cons_self _ _)
    have hcs : sep ∉ cs := fun hm => h (List.mem_cons_of_mem _ hm)
    simp [List.takeWhile_cons, hc, ih hcs]

/-- Recursive structure of the split: the first piece is the prefix up to
the first separator; the remaining pieces split the text after it. -/
theorem pySplitChar_eq (sep : Char) (l : List Char) :
    pySplitChar sep l =
      if sep ∈ l then
        l.takeWhile (fun c => !(c == sep))
          :: pySplitChar sep ((l.dropWhile (fun c => !(c == sep))).drop 1)
      else [l] := by
  induction l with
  | nil => simp [pySplitChar]
  | cons c cs ih =>
    by_cases h : c = sep
    · subst h
      simp [pySplitChar, List.takeWhile_cons, List.dropWhile_cons]
    · have h' : ¬(sep = c) := fun e => h e.symm
      by_cases hm : sep ∈ cs
      · simp [pySplitChar, h, h', hm, ih, consHead, List.takeWhile_cons, List.dropWhile_cons]
      · simp [pySplitChar, h, h', hm, ih, consHead, List.takeWhile_cons, List.dropWhile_cons]

/-- The first piece of a split is the prefix before the first separator. -/
theorem pySplitChar_headD (sep : Char) (l : List Char) :
    (pySplitChar sep l).headD [] = l.takeWhile (fun c => !(c == sep)) := by
  rw [pySplitChar_eq]
  by_cases h : sep ∈ l
  · simp [h]
  · simp [h, takeWhile_of_not_mem sep l h]

/-- Closed form of the line parser: the filename is the trimmed text before
the first `|`; the title is the trimmed text *between the first and second*
`|` when the line contains a `|` (text after a second `|` is discarded),
and otherwise the filename without its extension. -/
theorem parseLine_eq (line : List Char) :
    parseLine line =
      (pyStrip (line.takeWhile (fun c => !(c == '|'))),
        if '|' ∈ line then
          pyStrip (((line.dropWhile (fun c => !(c == '|'))).drop 1).takeWhile
            (fun c => !(c == '|')))
        else (splitext (pyStrip (line.takeWhile (fun c => !(c == '|'))))).1) := by
  unfold parseLine
  rw [pySplitChar_eq]
  by_cases h : '|' ∈ line
  · rw [if_pos h, if_pos h]
    cases hs : pySplitChar '|' ((line.dropWhile (fun c => !(c == '|'))).drop 1) with
    | nil => exact absurd hs (pySplitChar_ne_nil _ _)
    | cons t ps =>
      have ht := pySplitChar_headD '|' ((line.dropWhile (fun c => !(c == '|'))).drop 1)
      rw [hs] at ht
      simp only [List.headD_cons] at ht
      simp [ht]
  · rw [if_neg h, if_neg h]
    simp [takeWhile_of_not_mem _ _ h]

/-! ### The loop is the TimelineBuilder fold over the surviving entries -/

/-- Whatever way the loop ends, its chapters are the initial chapters
followed by the timeline fold over the surviving entries, and its manifest
lines are the initial ones followed by one `file '...'` line per surviving
entry. -/
theorem processLines_state_eq (inputDir : List Char) (fs : List Char → FileStatus) :
    ∀ (lines : List (List Char)) (s : LoopState),
      ((processLines inputDir fs lines s).state).chapters
          = s.chapters
              ++ timelineBuilderSpec s.curNs (survivors inputDir fs lines s.analysisRef)
        ∧ ((processLines inputDir fs lines s).state).concatLines
          = s.concatLines
              ++ (survivors inputDir fs lines s.analysisRef).map
                  (fun e => concatLineFor e.path) := by
  intro lines
  induction lines with
  | nil => intro s; simp [processLines, survivors, timelineBuilderSpec, LoopOut.state]
  | cons line rest ih =>
    intro s
    cases hfs : fs (pathJoin inputDir (parseLine line).1) with
    | absent =>
      simpa [processLines, survivors, hfs] using ih { s with warnings := s.warnings + 1 }
    | present p =>
      cases p with
      | fail => simp [processLines, survivors, hfs, timelineBuilderSpec, LoopOut.state]
      | ok info =>
        cases href : s.analysisRef with
        | none =>
          have h := ih (appendChapter s (some info) (parseLine line).2
            (pathJoin inputDir (parseLine line).1) info)
          simp only [appendChapter] at h
          simp [processLines, survivors, hfs, href, appendChapter, timelineBuilderSpec,
            ← durationNs_eq, h.1, h.2, List.append_assoc]
        | some r =>
          by_cases h1 : info.sample_rate = r.sample_rate
          · by_cases h2 : info.channels = r.channels
            · have h := ih (appendChapter s (some r) (parseLine line).2
                (pathJoin inputDir (parseLine line).1) info)
              simp only [appendChapter] at h
              simp [processLines, survivors, hfs, href, h1, h2, appendChapter,
                timelineBuilderSpec, ← durationNs_eq, h.1, h.2, List.append_assoc]
            · simp [processLines, survivors, hfs, href, h1, h2, timelineBuilderSpec,
                LoopOut.state]
          · simp [processLines, survivors, hfs, href, h1, timelineBuilderSpec, LoopOut.state]

/-! ### Contiguity of the timeline fold -/

/-- The timeline fold is contiguous from its starting cursor by
construction. -/
theorem timelineBuilderSpec_contiguous (l : List Survivor) :
    ∀ t, contiguousFrom t (timelineBuilderSpec t l) = true := by
  induction l with
  | nil => intro t; rfl
  | cons e rest ih => intro t; simp [timelineBuilderSpec, contiguousFrom, ih]

/-- In a contiguous-from-`t` list, the head starts at `t`. -/
theorem contiguousFrom_head (t : ℤ) (l : List Chapter)
    (h : contiguousFrom t l = true) : ∀ c, l.head? = some c → c.startNs = t := by
  cases l with
  | nil => intro c hc; cases hc
  | cons a l' =>
    intro c hc
    simp only [List.head?_cons, Option.some.injEq] at hc
    subst hc
    simp only [contiguousFrom, Bool.and_eq_true, beq_iff_eq] at h
    exact h.1

/-- In a contiguous list, each chapter ends where the next one starts. -/
theorem contiguousFrom_adjacent (l : List Chapter) :
    ∀ t i c c', contiguousFrom t l = true →
      l.get? i = some c → l.get? (i + 1) = some c' → c.endNs = c'.startNs := by
  induction l with
  | nil => intro t i c c' _ h1 _; cases h1
  | cons a l' ih =>
    intro t i c c' h h1 h2
    simp only [contiguousFrom, Bool.and_eq_true, beq_iff_eq] at h
    cases i with
    | zero =>
      simp only [List.get?_cons_zero, Option.some.injEq] at h1
      subst h1
      simp only [List.get?_cons_succ] at h2
      cases l' with
      | nil => cases h2
      | cons b l'' =>
        simp only [List.get?_cons_zero, Option.some.injEq] at h2
        subst h2
        simp only [contiguousFrom, Bool.and_eq_true, beq_iff_eq] at h
        exact (h.2.1).symm
    | succ j =>
      simp only [List.get?_cons_succ] at h1 h2
      exact ih a.endNs j c c' h.2 h1 h2

/-! ### Counting warnings and chapters -/

/-- Splitting a list by a predicate preserves its length. -/
theorem length_filter_add_length_filter_not {α : Type} (p : α → Bool) (l : List α) :
    (l.filter p).length + (l.filter (fun x => !(p x))).length = l.length := by
  induction l with
  | nil => rfl
  | cons a l ih => by_cases h : p a <;> simp [h, List.filter_cons] <;> omega

/-- When the loop finishes (no abort), it has warned exactly once per
missing file and built exactly one chapter per non-missing file. -/
theorem processLines_finished_counts (inputDir : List Char) (fs : List Char → FileStatus) :
    ∀ (lines : List (List Char)) (s s' : LoopState),
      processLines inputDir fs lines s = .finished s' →
        s'.warnings
            = s.warnings + (lines.filter (fun l => lineMissing inputDir fs l)).length
          ∧ s'.chapters.length
              = s.chapters.length
                  + (lines.filter (fun l => !(lineMissing inputDir fs l))).length := by
  intro lines
  induction lines with
  | nil =>
    intro s s' h
    simp only [processLines, LoopOut.finished.injEq] at h
    subst h
    simp
  | cons line rest ih =>
    intro s s' h
    cases hfs : fs (pathJoin inputDir (parseLine line).1) with
    | absent =>
      have hm : lineMissing inputDir fs line = true := by simp [lineMissing, hfs]
      simp only [processLines, hfs] at h
      have hr := ih _ _ h
      simp only at hr
      constructor
      · rw [hr.1]
        simp [List.filter_cons, hm]
        omega
      · simpa [List.filter_cons, hm] using hr.2
    | present p =>
      have hm : lineMissing inputDir fs line = false := by simp [lineMissing, hfs]
      cases p with
      | fail => simp [processLines, hfs] at h
      | ok info =>
        cases href : s.analysisRef with
        | none =>
          simp only [processLines, hfs, href] at h
          have hr := ih _ _ h
          simp only [appendChapter] at hr
          constructor
          · simpa [List.filter_cons, hm] using hr.1
          · rw [hr.2]
            simp [List.filter_cons, hm]
            omega
        | some r =>
          by_cases h1 : info.sample_rate = r.sample_rate
          · by_cases h2 : info.channels = r.channels
            · have h' : processLines inputDir fs rest
                  (appendChapter s (some r) (parseLine line).2
                    (pathJoin inputDir (parseLine line).1) info) = .finished s' := by
                simpa [processLines, hfs, href, h1, h2] using h
              have hr := ih _ _ h'
              simp only [appendChapter] at hr
              constructor
              · simpa [List.filter_cons, hm] using hr.1
              · rw [hr.2]
                simp [List.filter_cons, hm]
                omega
            · simp [processLines, hfs, href, h1, h2] at h
          · simp [processLines, hfs, href, h1] at h

/-! ### Projections of the run result -/

/-- The chapters the run reports are the loop state's chapters. -/
theorem runPipeline_chapters (d : List Char) (fs : List Char → FileStatus) (m : Bool)
    (ls : List (List Char)) :
    (runPipeline d fs m ls).chapters
      = ((processLines d fs (validLines ls) initState).state).chapters := by
  rw [runPipeline]
  cases processLines d fs (validLines ls) initState with
  | aborted r s => rfl
  | finished s => by_cases h : s.chapters.isEmpty <;> simp [h, LoopOut.state]

/-- The manifest lines the run reports are the loop state's. -/
theorem runPipeline_concatLines (d : List Char) (fs : List Char → FileStatus) (m : Bool)
    (ls : List (List Char)) :
    (runPipeline d fs m ls).concatLines
      = ((processLines d fs (validLines ls) initState).state).concatLines := by
  rw [runPipeline]
  cases processLines d fs (validLines ls) initState with
  | aborted r s => rfl
  | finished s => by_cases h : s.chapters.isEmpty <;> simp [h, LoopOut.state]

/-- The warnings the run reports are the loop state's. -/
theorem runPipeline_warnings (d : List Char) (fs : List Char → FileStatus) (m : Bool)
    (ls : List (List Char)) :
    (runPipeline d fs m ls).warnings
      = ((processLines d fs (validLines ls) initState).state).warnings := by
  rw [runPipeline]
  cases processLines d fs (validLines ls) initState with
  | aborted r s => rfl
  | finished s => by_cases h : s.chapters.isEmpty <;> simp [h, LoopOut.state]

/-- A single-character replacement is a character map. -/
theorem replaceChar_singleton_map (t r : Char) (l : List Char) :
    replaceChar t [r] l = l.map (fun c => if c = t then r else c) := by
  induction l with
  | nil => rfl
  | cons c cs ih => by_cases h : c = t <;> simp [replaceChar, h, ih]

/-- Replacing backslashes by slashes does not touch single quotes. -/
theorem replaceChar_count_quote (p : List Char) :
    (replaceChar '\\' ['/'] p).count '\'' = p.count '\'' := by
  induction p with
  | nil => rfl
  | cons c cs ih =>
    by_cases h : c = '\\'
    · subst h
      simpa [replaceChar, List.count_cons] using ih
    · simp [replaceChar, h, List.count_cons, ih]

/-! ## The claims -/

/-- Claim C1: the spec requires a non-zero process exit when the external
muxing tool fails.  Evaluating the embedded `main` on a run whose join step
fails: the join is invoked, no success message is printed, yet the process
exit code is 0 — the `except` clause at source lines 309-310 only prints
and no `sys.exit` follows, so `main` returns normally. -/
theorem join_failure_exits_zero :
    (runPipeline "d".data fsOneGood false ["a.mp3".data]).joinInvoked = true
    ∧ (runPipeline "d".data fsOneGood false ["a.mp3".data]).successMsg = false
    ∧ (runPipeline "d".data fsOneGood false ["a.mp3".data]).exit = 0 :=
  ⟨by decide, by decide, by decide⟩

/-- Counterexample to claim C2: a sample-rate mismatch (the
`IncompatibleStreamError` analogue) aborts the run with exit code 1, and
the partially written concat manifest — already holding one line — is still
on disk at process exit, because the cleanup `finally` wraps only the join
step. -/
theorem manifest_left_on_validation_failure :
    (processLines "d".data fsRateClash
        (validLines ["a.mp3".data, "b.mp3".data]) initState).reasonOf
        = some .sampleRateMismatch
    ∧ (runPipeline "d".data fsRateClash true ["a.mp3".data, "b.mp3".data]).exit = 1
    ∧ (runPipeline "d".data fsRateClash true
        ["a.mp3".data, "b.mp3".data]).concatRemains = true
    ∧ (runPipeline "d".data fsRateClash true
        ["a.mp3".data, "b.mp3".data]).concatLines ≠ [] :=
  ⟨by decide, by decide, by decide, by decide⟩

/-- Claim C2 (amended): the metadata artifact never survives a run (on the
pre-join exit paths it has not yet been created; on the join paths the
`finally` removes it), while the concat manifest survives exactly when the
join step is never reached — in particular it remains on disk after a
validation failure. -/
theorem artifact_cleanup (inputDir : List Char) (fs : List Char → FileStatus)
    (muxOk : Bool) (lines : List (List Char)) :
    (runPipeline inputDir fs muxOk lines).metadataRemains = false
    ∧ ((runPipeline inputDir fs muxOk lines).concatRemains
        = !(runPipeline inputDir fs muxOk lines).joinInvoked) := by
  rw [runPipeline]
  cases processLines inputDir fs (validLines lines) initState with
  | aborted r s => simp [RunResult.metadataRemains, RunResult.concatRemains]
  | finished s =>
    by_cases h : s.chapters.isEmpty <;>
      simp [h, RunResult.metadataRemains, RunResult.concatRemains]

/-- Claim C3: every chapter list produced by the pipeline is a contiguous
timeline: the first chapter starts at 0 and each chapter ends exactly where
the next begins (no gap, no overlap). -/
theorem timeline_contiguous (inputDir : List Char) (fs : List Char → FileStatus)
    (muxOk : Bool) (lines : List (List Char)) :
    (∀ c, (runPipeline inputDir fs muxOk lines).chapters.head? = some c →
      c.startNs = 0)
    ∧ (∀ i c c',
        (runPipeline inputDir fs muxOk lines).chapters.get? i = some c →
        (runPipeline inputDir fs muxOk lines).chapters.get? (i + 1) = some c' →
        c.endNs = c'.startNs) := by
  have hch : (runPipeline inputDir fs muxOk lines).chapters
      = timelineBuilderSpec 0 (survivors inputDir fs (validLines lines) none) := by
    rw [runPipeline_chapters]
    simpa [initState] using
      (processLines_state_eq inputDir fs (validLines lines) initState).1
  have hcont : contiguousFrom 0 (runPipeline inputDir fs muxOk lines).chapters = true := by
    rw [hch]; exact timelineBuilderSpec_contiguous _ 0
  exact ⟨contiguousFrom_head 0 _ hcont,
    fun i c c' h1 h2 => contiguousFrom_adjacent _ 0 i c c' hcont h1 h2⟩

/-- Witness for claim C3 on a concrete two-file run (1 s then 2 s). -/
theorem timeline_contiguous_witness :
    ((runPipeline "d".data fsTwoGood true ["a.mp3".data, "b.mp3".data]).chapters.head?
        = some ⟨"a".data, 0, 1000000000⟩)
    ∧ Chapter.startNs ⟨"a".data, 0, 1000000000⟩ = 0
    ∧ ((runPipeline "d".data fsTwoGood true ["a.mp3".data, "b.mp3".data]).chapters.get? 0
        = some ⟨"a".data, 0, 1000000000⟩)
    ∧ ((runPipeline "d".data fsTwoGood true ["a.mp3".data, "b.mp3".data]).chapters.get? 1
        = some ⟨"b".data, 1000000000, 3000000000⟩)
    ∧ Chapter.endNs ⟨"a".data, 0, 1000000000⟩
        = Chapter.startNs ⟨"b".data, 1000000000, 3000000000⟩ :=
  ⟨by decide,
   (timeline_contiguous "d".data fsTwoGood true ["a.mp3".data, "b.mp3".data]).1 _
     (by decide),
   by decide, by decide,
   (timeline_contiguous "d".data fsTwoGood true ["a.mp3".data, "b.mp3".data]).2 0 _ _
     (by decide) (by decide)⟩

/-- Counterexample to claim C4: for a file of 3/2 nanoseconds the pipeline
builds the chapter `[0, 1)` — `int()` truncation — whereas the claimed
`round(durationSeconds * 1_000_000_000)` is 2. -/
theorem duration_rounding_counterexample :
    (runPipeline "d".data fsHalfNs true ["a.mp3".data]).chapters = [⟨"a".data, 0, 1⟩]
    ∧ pyRound ((mkRat 3 2000000000) * 1000000000) = 2
    ∧ (1 : ℤ) ≠ 2 :=
  ⟨by decide, by rw [← mulPow9_eq]; decide, by decide⟩

/-- Claim C4 (amended): the pipeline's chapters are exactly the fold that
gives each surviving entry `startNs = currentNs` and
`endNs = currentNs + durationNs` with `durationNs` the truncation toward
zero (Python `int()`) of `durationSeconds * 1_000_000_000`, the same rule
for every entry of the run. -/
theorem timeline_is_truncation_fold (inputDir : List Char) (fs : List Char → FileStatus)
    (muxOk : Bool) (lines : List (List Char)) :
    (runPipeline inputDir fs muxOk lines).chapters
      = timelineBuilderSpec 0 (survivors inputDir fs (validLines lines) none) := by
  rw [runPipeline_chapters]
  simpa [initState] using
    (processLines_state_eq inputDir fs (validLines lines) initState).1

/-- Claim C5: escaping a title in the defined order (backslash first, then
`=`, `;`, `#`) and un-escaping the serialized metadata value recovers the
original title exactly, for every title. -/
theorem escape_metadata_roundtrip (s : List Char) :
    unescape (escape_metadata s) = s := by
  induction s with
  | nil => rfl
  | cons c cs ih =>
    have hc : escape_metadata (c :: cs) = escape_metadata [c] ++ escape_metadata cs := by
      simpa using escape_append [c] cs
    rw [hc, escape_single]
    by_cases h : c = '\\' ∨ c = '=' ∨ c = ';' ∨ c = '#'
    · rw [if_pos h]
      show unescape ('\\' :: c :: escape_metadata cs) = c :: cs
      rw [unescape_esc, ih]
    · rw [if_neg h]
      push_neg at h
      show unescape (c :: escape_metadata cs) = c :: cs
      rw [unescape_cons_of_ne c _ h.1, ih]

/-- Counterexample to claim C6: in the order line `a.mp3|b|c` the trimmed
text after the first `|` is `b|c`, but the parsed chapter title is `b` —
`split('|')` plus `parts[1]` keeps only the text between the first and
second separators, so a title cannot contain `|`. -/
theorem split_title_counterexample :
    (parseLine "a.mp3|b|c".data).2 = "b".data
    ∧ "b".data ≠ "b|c".data
    ∧ (runPipeline "d".data fsOneGood true ["a.mp3|b|c".data]).chapters
        = [⟨"b".data, 0, 1000000000⟩] :=
  ⟨by decide, by decide, by decide⟩

/-- Claim C7: missing source files are non-fatal: whenever the processing
loop finishes (does not abort), the run has exactly one warning per order
line whose file is missing, each such line contributes no chapter, and the
chapter count plus the warning count equals the number of non-blank order
lines — so 5 lines with 1 missing file yield 4 chapters. -/
theorem missing_files_skipped (inputDir : List Char) (fs : List Char → FileStatus)
    (muxOk : Bool) (lines : List (List Char))
    (h : (processLines inputDir fs (validLines lines) initState).isAborted = false) :
    (runPipeline inputDir fs muxOk lines).warnings
        = ((validLines lines).filter (fun l => lineMissing inputDir fs l)).length
    ∧ (runPipeline inputDir fs muxOk lines).chapters.length
          + (runPipeline inputDir fs muxOk lines).warnings
        = (validLines lines).length := by
  cases hp : processLines inputDir fs (validLines lines) initState with
  | aborted r s => rw [hp] at h; simp [LoopOut.isAborted] at h
  | finished s =>
    have hc := processLines_finished_counts inputDir fs (validLines lines) initState s hp
    rw [runPipeline_warnings, runPipeline_chapters, hp]
    simp only [LoopOut.state]
    simp only [initState, List.length_nil, Nat.zero_add] at hc
    refine ⟨hc.1, ?_⟩
    rw [hc.1, hc.2]
    have := length_filter_add_length_filter_not
      (fun l => lineMissing inputDir fs l) (validLines lines)
    omega

/-- Witness for claim C7: five order lines of which exactly one names a
missing file; the run finishes with 4 chapters and 1 warning. -/
theorem missing_files_skipped_witness :
    ((processLines "d".data fsOneMissing (validLines fiveLines) initState).isAborted
        = false)
    ∧ (runPipeline "d".data fsOneMissing true fiveLines).warnings
        = ((validLines fiveLines).filter
            (fun l => lineMissing "d".data fsOneMissing l)).length
    ∧ (runPipeline "d".data fsOneMissing true fiveLines).chapters.length
          + (runPipeline "d".data fsOneMissing true fiveLines).warnings
        = (validLines fiveLines).length
    ∧ (runPipeline "d".data fsOneMissing true fiveLines).warnings = 1
    ∧ (runPipeline "d".data fsOneMissing true fiveLines).chapters.length = 4 :=
  ⟨by decide,
   (missing_files_skipped "d".data fsOneMissing true fiveLines (by decide)).1,
   (missing_files_skipped "d".data fsOneMissing true fiveLines (by decide)).2,
   by decide, by decide⟩

/-- Counterexample to claim C8: a successfully probed file with duration 0
enters the timeline — no duration check exists — and produces a chapter
with `endNs == startNs`; the run completes with exit code 0. -/
theorem zero_duration_chapter :
    (runPipeline "d".data fsZeroDur true ["a.mp3".data]).chapters = [⟨"a".data, 0, 0⟩]
    ∧ (runPipeline "d".data fsZeroDur true ["a.mp3".data]).exit = 0
    ∧ Chapter.endNs ⟨"a".data, 0, 0⟩ = Chapter.startNs ⟨"a".data, 0, 0⟩ :=
  ⟨by decide, by decide, by decide⟩

/-- Claim C8 (amended): a probe failure — in particular a missing audio
stream — is fatal: the run exits 1 without invoking the join step and the
failing file contributes no chapter.  Durations, however, are not
validated, so zero-duration chapters are possible (see the counterexample). -/
theorem probe_failure_fatal (inputDir : List Char) (fs : List Char → FileStatus)
    (muxOk : Bool) (lines : List (List Char)) (s : LoopState)
    (h : processLines inputDir fs (validLines lines) initState
        = .aborted .probeError s) :
    (runPipeline inputDir fs muxOk lines).exit = 1
    ∧ (runPipeline inputDir fs muxOk lines).joinInvoked = false
    ∧ (runPipeline inputDir fs muxOk lines).chapters = s.chapters := by
  simp [runPipeline, h]

/-- Witness for claim C8: one order line whose file exists but fails to
probe. -/
theorem probe_failure_fatal_witness :
    (processLines "d".data fsProbeFail (validLines ["a.mp3".data]) initState
        = .aborted .probeError initState)
    ∧ ((runPipeline "d".data fsProbeFail true ["a.mp3".data]).exit = 1
       ∧ (runPipeline "d".data fsProbeFail true ["a.mp3".data]).joinInvoked = false
       ∧ (runPipeline "d".data fsProbeFail true ["a.mp3".data]).chapters
            = initState.chapters) :=
  ⟨by decide,
   probe_failure_fatal "d".data fsProbeFail true ["a.mp3".data] initState (by decide)⟩

/-- Claim C9: an order file whose lines are all blank reports "no valid
files" and exits with a non-zero code without ever invoking the join step. -/
theorem empty_order_file (inputDir : List Char) (fs : List Char → FileStatus)
    (muxOk : Bool) (lines : List (List Char))
    (h : ∀ l ∈ lines, pyStrip l = []) :
    (runPipeline inputDir fs muxOk lines).noValidFilesMsg = true
    ∧ (runPipeline inputDir fs muxOk lines).exit = 1
    ∧ (runPipeline inputDir fs muxOk lines).joinInvoked = false := by
  have hv : validLines lines = [] := by
    rw [validLines, List.filter_eq_nil_iff]
    intro a ha
    rcases List.mem_map.mp ha with ⟨l, hl, rfl⟩
    simp [h l hl]
  simp [runPipeline, hv, processLines, initState]

/-- Witness for claim C9: two blank lines (one empty, one whitespace). -/
theorem empty_order_file_witness :
    (∀ l ∈ [([] : List Char), "  ".data], pyStrip l = [])
    ∧ ((runPipeline "d".data (fun _ => FileStatus.absent) true
          [([] : List Char), "  ".data]).noValidFilesMsg = true
       ∧ (runPipeline "d".data (fun _ => FileStatus.absent) true
          [([] : List Char), "  ".data]).exit = 1
       ∧ (runPipeline "d".data (fun _ => FileStatus.absent) true
          [([] : List Char), "  ".data]).joinInvoked = false) :=
  ⟨by decide,
   empty_order_file "d".data (fun _ => FileStatus.absent) true
     [([] : List Char), "  ".data] (by decide)⟩

/-- Claim C10: each manifest line written is exactly `file '` followed by
the file path with every backslash replaced by a forward slash, followed by
`'` (and the newline of the `write` call); every character other than a
backslash — single quotes included — passes through unaltered, so a path
containing `'` contributes extra quote characters to the line. -/
theorem concat_manifest_lines (inputDir : List Char) (fs : List Char → FileStatus)
    (muxOk : Bool) (lines : List (List Char)) :
    (runPipeline inputDir fs muxOk lines).concatLines
        = (survivors inputDir fs (validLines lines) none).map
            (fun e => ("file ".data ++ ['\''])
              ++ e.path.map (fun c => if c = '\\' then '/' else c) ++ ['\'', '\n'])
    ∧ (∀ p : List Char,
        (replaceChar '\\' ['/'] p).count '\'' = p.count '\'') := by
  constructor
  · rw [runPipeline_concatLines]
    have h := (processLines_state_eq inputDir fs (validLines lines) initState).2
    rw [show initState.analysisRef = none from rfl,
      show initState.concatLines = ([] : List (List Char)) from rfl,
      List.nil_append] at h
    rw [h]
    have hline : ∀ e : Survivor,
        concatLineFor e.path
          = ("file ".data ++ ['\''])
              ++ e.path.map (fun c => if c = '\\' then '/' else c) ++ ['\'', '\n'] := by
      intro e
      rw [concatLineFor, replaceChar_singleton_map]
    simp only [hline]
  · exact replaceChar_count_quote

end M4bJoiner
